import Mathlib

/-!
Verification of the hirnu-fine-tuning data-preparation pipeline.

This file gives a shallow embedding of the data pipeline of the
repository (preprocessor, format converter, dataset splitter, validator,
evaluator stubs, early-stopping callback) and proves the specified
properties about it.  Python floats in configuration values are modelled
as exact rationals; machine-level details that the properties do not
depend on (the Mersenne-Twister stream of `random.shuffle`) are modelled
by a concrete seeded pseudo-random generator with the same interface.
-/

set_option linter.unusedVariables false

namespace Hirnu

/-! ## Python string primitives -/

/-- Whitespace characters recognised by the default `str.strip` in Python
(ASCII range; the corpus and all properties here use ASCII text). -/
def isPyWs (c : Char) : Bool :=
  c = ' ' || c = '\t' || c = '\n' || c = '\r' || c = '\x0b' || c = '\x0c'

/-- Strip leading and trailing whitespace from a character list. -/
def pyStripList (l : List Char) : List Char :=
  (((l.dropWhile isPyWs).reverse).dropWhile isPyWs).reverse

/-- Model of the Python `str.strip()` method. -/
def pyStrip (s : String) : String :=
  String.mk (pyStripList s.data)

/-- Is one character list a prefix of another? -/
def listIsPrefixB : List Char → List Char → Bool
  | [], _ => true
  | _ :: _, [] => false
  | a :: as, b :: bs => a == b && listIsPrefixB as bs

/-- Model of the Python `str.startswith` method. -/
def pyStartsWith (s pre : String) : Bool :=
  listIsPrefixB pre.data s.data

/-- Model of the Python slice `s[n:]` on a string (by characters, as in
Python). -/
def pyDrop (s : String) (n : Nat) : String :=
  String.mk (s.data.drop n)

/-- Model of the Python test `c in s` for a single character. -/
def pyContainsChar (s : String) (c : Char) : Bool :=
  s.data.contains c

/-- Collapse every maximal run of whitespace into a single space,
modelling the regex substitution in `normalize_whitespace`; the flag
records whether the scan is inside a whitespace run. -/
def collapseWsAux : Bool → List Char → List Char
  | _, [] => []
  | inRun, c :: cs =>
    if isPyWs c then
      (if inRun then [] else [' ']) ++ collapseWsAux true cs
    else c :: collapseWsAux false cs

/-- Model of `HirnuPreprocessor.normalize_whitespace`: when the option is
enabled (its default), collapse whitespace runs to a single space and
strip the ends; otherwise return the text unchanged. -/
def normalizeWhitespace (enabled : Bool) (text : String) : String :=
  if enabled then pyStrip (String.mk (collapseWsAux false text.data))
  else text

/-! ## JSON values and the Example data model -/

/-- JSON trees, the values handled by the converter and validator. -/
inductive Json where
  | null : Json
  | bool : Bool → Json
  | num : ℚ → Json
  | str : String → Json
  | arr : List Json → Json
  | obj : List (String × Json) → Json

/-- Key lookup in a JSON object (Python `dict` access / `in` test). -/
def Json.getKey? (j : Json) (k : String) : Option Json :=
  match j with
  | Json.obj kvs => kvs.lookup k
  | _ => none

/-- Roles of chat messages. -/
inductive Role where
  | system : Role
  | user : Role
  | assistant : Role
deriving DecidableEq

/-- Role names as they appear in the JSON files. -/
def Role.toStr : Role → String
  | Role.system => "system"
  | Role.user => "user"
  | Role.assistant => "assistant"

/-- One chat message: a role/content pair. -/
structure Message where
  role : Role
  content : String
deriving DecidableEq

/-- An Example of the data model: a mapping with a `messages` sequence of
role/content pairs, the unit of the training corpus (this is exactly the
shape produced by the preprocessor). -/
structure Example where
  messages : List Message
deriving DecidableEq

/-- JSON encoding of a chat message. -/
def Message.toJson (m : Message) : Json :=
  Json.obj [(("role"), Json.str m.role.toStr), (("content"), Json.str m.content)]

/-- JSON encoding of an Example. -/
def Example.toJson (e : Example) : Json :=
  Json.obj [(("messages"), Json.arr (e.messages.map Message.toJson))]

/-! ## Preprocessor (`src/data/preprocessor.py`) -/

/-- Preprocessing configuration: the `preprocessing` options and the
configured chat-template system message. -/
structure PreprocCfg where
  normalizeWs : Bool
  minTextLength : Nat
  maxTextLength : Nat
  systemMsg : String

/-- Default preprocessing options as hard-coded in the Python `get` calls. -/
def defaultCfg : PreprocCfg :=
  { normalizeWs := true
    minTextLength := 10
    maxTextLength := 4096
    systemMsg := "You are a helpful assistant for the Hirnu language." }

/-- Model of `HirnuPreprocessor.validate_length`. -/
def validateLength (cfg : PreprocCfg) (text : String) : Bool :=
  decide (cfg.minTextLength ≤ text.length) && decide (text.length ≤ cfg.maxTextLength)

/-- Build the chat Example emitted by the preprocessor routines. -/
def mkChatExample (sys q a : String) : Example :=
  { messages :=
      [ { role := Role.system, content := sys }
      , { role := Role.user, content := q }
      , { role := Role.assistant, content := a } ] }

/-- Model of the `Q:`/`A:` scanning loop of `preprocess_grammar_data` on
the list of lines of one file.  A line starting with `Q:` consumes the
following line as a candidate answer (the loop index advances by two);
any other line is skipped. -/
def grammarLoop (cfg : PreprocCfg) : List String → List Example
  | [] => []
  | [_] => []
  | l :: l2 :: rest2 =>
    let line := pyStrip l
    if pyStartsWith line ("Q:") then
      let q := pyStrip (pyDrop line 2)
      (if pyStartsWith (pyStrip l2) ("A:") then
        let a := pyStrip (pyDrop (pyStrip l2) 2)
        if q ≠ "" ∧ a ≠ "" ∧ validateLength cfg (q ++ a) then
          [mkChatExample cfg.systemMsg q a]
        else []
      else []) ++ grammarLoop cfg rest2
    else grammarLoop cfg (l2 :: rest2)

/-- The english-to-hirnu Example emitted by `preprocess_vocabulary_data`. -/
def mkToHirnu (sys en hi : String) : Example :=
  mkChatExample sys ("Translate to Hirnu: " ++ en) hi

/-- The hirnu-to-english Example emitted by `preprocess_vocabulary_data`. -/
def mkToEnglish (sys en hi : String) : Example :=
  mkChatExample sys ("Translate to English: " ++ hi) en

/-- Model of the `EN:`/`HI:` scanning loop of `preprocess_vocabulary_data`. -/
def vocabLoop (cfg : PreprocCfg) : List String → List Example
  | [] => []
  | [_] => []
  | l :: l2 :: rest2 =>
    let line := pyStrip l
    if line = "" ∨ pyStartsWith line ("#") then vocabLoop cfg (l2 :: rest2)
    else if pyStartsWith line ("EN:") then
      let en := pyStrip (pyDrop line 3)
      (if pyStartsWith (pyStrip l2) ("HI:") then
        let hi := pyStrip (pyDrop (pyStrip l2) 3)
        if en ≠ "" ∧ hi ≠ "" then
          [mkToHirnu cfg.systemMsg en hi, mkToEnglish cfg.systemMsg en hi]
        else []
      else []) ++ vocabLoop cfg rest2
    else vocabLoop cfg (l2 :: rest2)

/-- The extra question Example emitted by `preprocess_text_data` when both
sides of a parallel pair contain a double quote. -/
def mkWhatMeans (sys hi en : String) : Example :=
  mkChatExample sys ("What does this mean in English: " ++ hi) en

/-- Model of the `HI:`/`EN:` scanning loop of `preprocess_text_data`. -/
def textLoop (cfg : PreprocCfg) : List String → List Example
  | [] => []
  | [_] => []
  | l :: l2 :: rest2 =>
    let line := pyStrip l
    if line = "" ∨ pyStartsWith line ("#") ∨ pyStartsWith line ("---") then
      textLoop cfg (l2 :: rest2)
    else if pyStartsWith line ("HI:") then
      let hi := pyStrip (pyDrop line 3)
      (if pyStartsWith (pyStrip l2) ("EN:") then
        let en := pyStrip (pyDrop (pyStrip l2) 3)
        if hi ≠ "" ∧ en ≠ "" then
          [mkToHirnu cfg.systemMsg en hi, mkToEnglish cfg.systemMsg en hi] ++
            (if pyContainsChar hi '\"' ∧ pyContainsChar en '\"' then
              [mkWhatMeans cfg.systemMsg hi en]
            else [])
        else []
      else []) ++ textLoop cfg rest2
    else textLoop cfg (l2 :: rest2)

/-! ## Format converter (`src/data/converter.py`) -/

/-- Converter configuration: the configured format type and the
chat-template system message. -/
structure ConvCfg where
  formatType : String
  chatSystem : String

/-- Model of `MLXFormatConverter.to_chat_format`: an example that already
has a `messages` key is returned as-is; otherwise a chat envelope is
built from the system message and the optional user/assistant fields. -/
def toChatFormat (cfg : ConvCfg) (ex : Json) : Json :=
  if (ex.getKey? ("messages")).isSome then ex
  else
    let base := [Json.obj [(("role"), Json.str ("system")), (("content"), Json.str cfg.chatSystem)]]
    let msgs :=
      match ex.getKey? ("user"), ex.getKey? ("assistant") with
      | some u, some a =>
        base ++
          [ Json.obj [(("role"), Json.str ("user")), (("content"), u)]
          , Json.obj [(("role"), Json.str ("assistant")), (("content"), a)] ]
      | _, _ => base
    Json.obj [(("messages"), Json.arr msgs)]

/-- Model of `MLXFormatConverter.to_completion_format` (a placeholder in
the source: it returns empty prompt and completion fields). -/
def toCompletionFormat (ex : Json) : Json :=
  Json.obj [(("prompt"), Json.str ("")), (("completion"), Json.str (""))]

/-- Model of `MLXFormatConverter.to_text_format`: wraps the value of the
`content` key (defaulting to the empty string) in a `text` field. -/
def toTextFormat (ex : Json) : Json :=
  Json.obj [(("text"), (ex.getKey? ("content")).getD (Json.str ("")))]

/-- Model of `MLXFormatConverter.convert_example`: dispatch on the
configured format type; an unknown type raises `ValueError`. -/
def convertExample (cfg : ConvCfg) (ex : Json) : Except String Json :=
  if cfg.formatType = "chat" then Except.ok (toChatFormat cfg ex)
  else if cfg.formatType = "completion" then Except.ok (toCompletionFormat ex)
  else if cfg.formatType = "text" then Except.ok (toTextFormat ex)
  else Except.error ("Unknown format type")

/-- Model of JSON serialization (`json.dumps`) followed by re-parsing
(`json.loads`), as performed by `convert_and_save` and the validator.
The Python `json` library is external to the repository; on JSON trees
of this form the write/read pair is the identity, which is how it is
modelled here. -/
def jsonRoundTrip (j : Json) : Json := j

/-! ## Validator (`src/data/validator.py`)

The validator receives arbitrary parsed JSON values, so the Python
membership test `k in example` and the subscript `example[k]` are
modelled faithfully: on a dict they test/fetch a key, on a list they
test membership of the string value, on a string they test substring
containment, and on any other value (numbers, booleans, null) they
raise an uncaught `TypeError`, modelled as `Except.error`. -/

/-- Model of the Python expression `k in example` for a parsed JSON value. -/
def pyIn (k : String) (j : Json) : Except String Bool :=
  match j with
  | Json.obj kvs => Except.ok (kvs.lookup k).isSome
  | Json.arr xs =>
    Except.ok (xs.any (fun x => match x with | Json.str s => s = k | _ => false))
  | Json.str s => Except.ok (decide (k.data <:+: s.data))
  | _ => Except.error ("TypeError: argument is not iterable")

/-- Model of the Python subscript `example[k]` with a string key. -/
def pySub (j : Json) (k : String) : Except String Json :=
  match j with
  | Json.obj kvs =>
    match kvs.lookup k with
    | some v => Except.ok v
    | none => Except.error ("KeyError")
  | _ => Except.error ("TypeError: indices must be integers")

/-- Format a per-line error entry of the validation report. -/
def lineErr (i : Nat) (msg : String) : String :=
  "Line " ++ toString i ++ ": " ++ msg

/-- Is the role value one of the three admitted role strings?  The Python
test is `msg[role] not in [system, user, assistant]`; a non-string value
is never equal to a string. -/
def roleValid (v : Json) : Bool :=
  match v with
  | Json.str r => r = "system" || r = "user" || r = "assistant"
  | _ => false

/-- The message-checking loop of `validate_chat_format`.  Every message
must be a dict with `role` and `content` keys and an admitted role; all
operations on a dict message are total, so the loop never raises. -/
def validateChatMsgs (i : Nat) : List Json → Bool × Option String
  | [] => (true, none)
  | m :: rest =>
    match m with
    | Json.obj kvs =>
      if (kvs.lookup ("role")).isNone then
        (false, some ("Message " ++ toString i ++ " missing role field"))
      else if (kvs.lookup ("content")).isNone then
        (false, some ("Message " ++ toString i ++ " missing content field"))
      else if roleValid (((kvs.lookup ("role"))).getD Json.null) then
        validateChatMsgs (i + 1) rest
      else
        (false, some ("Message " ++ toString i ++ " has invalid role"))
    | _ => (false, some ("Message " ++ toString i ++ " is not a dictionary"))

/-- Model of `DatasetValidator.validate_chat_format`; an exception from
the membership test or the subscript propagates. -/
def validateChatFormat (ex : Json) : Except String (Bool × Option String) :=
  match pyIn ("messages") ex with
  | Except.error e => Except.error e
  | Except.ok has =>
    if !has then Except.ok (false, some ("Missing messages field"))
    else
      match pySub ex ("messages") with
      | Except.error e => Except.error e
      | Except.ok m =>
        match m with
        | Json.arr msgs => Except.ok (validateChatMsgs 0 msgs)
        | _ => Except.ok (false, some ("messages must be a list"))

/-- Model of `DatasetValidator.validate_completion_format`. -/
def validateCompletionFormat (ex : Json) : Except String (Bool × Option String) :=
  match pyIn ("prompt") ex with
  | Except.error e => Except.error e
  | Except.ok hasP =>
    if !hasP then Except.ok (false, some ("Missing prompt field"))
    else
      match pyIn ("completion") ex with
      | Except.error e => Except.error e
      | Except.ok hasC =>
        if !hasC then Except.ok (false, some ("Missing completion field"))
        else Except.ok (true, none)

/-- Model of `DatasetValidator.validate_text_format`. -/
def validateTextFormat (ex : Json) : Except String (Bool × Option String) :=
  match pyIn ("text") ex with
  | Except.error e => Except.error e
  | Except.ok has =>
    if !has then Except.ok (false, some ("Missing text field"))
    else
      match pySub ex ("text") with
      | Except.error e => Except.error e
      | Except.ok v =>
        match v with
        | Json.str _ => Except.ok (true, none)
        | _ => Except.ok (false, some ("text must be a string"))

/-- Model of `DatasetValidator.validate_example`: dispatch on the
configured format type; an unknown type yields an invalid verdict
without raising. -/
def validateExample (fmt : String) (ex : Json) : Except String (Bool × Option String) :=
  if fmt = "chat" then validateChatFormat ex
  else if fmt = "completion" then validateCompletionFormat ex
  else if fmt = "text" then validateTextFormat ex
  else Except.ok (false, some ("Unknown format type: " ++ fmt))

/-- The line loop of `validate_jsonl_file` over the parse outcome of each
line (`none` models a line on which `json.loads` raises
`JSONDecodeError`, which the loop catches).  Returns the counts of valid
and invalid examples and the error entries; an uncaught exception from
the schema check aborts the whole loop, as in the source. -/
def vLoop (fmt : String) (i : Nat) : List (Option Json) → Except String (Nat × Nat × List String)
  | [] => Except.ok (0, 0, [])
  | none :: rest =>
    match vLoop fmt (i + 1) rest with
    | Except.error e => Except.error e
    | Except.ok r => Except.ok (r.1, r.2.1 + 1, lineErr i ("Invalid JSON") :: r.2.2)
  | some j :: rest =>
    match validateExample fmt j with
    | Except.error e => Except.error e
    | Except.ok v =>
      match vLoop fmt (i + 1) rest with
      | Except.error e => Except.error e
      | Except.ok r =>
        if v.1 then Except.ok (r.1 + 1, r.2.1, r.2.2)
        else Except.ok (r.1, r.2.1 + 1, lineErr i (v.2.getD ("")) :: r.2.2)

/-- The validation report of one JSONL file. -/
structure FileReport where
  valid : Bool
  total : Nat
  validExamples : Nat
  invalidExamples : Nat
  errors : List String
deriving DecidableEq

/-- Model of `DatasetValidator.validate_jsonl_file` on the list of parse
outcomes of the lines of an existing file. -/
def validateJsonlFile (fmt : String) (lines : List (Option Json)) : Except String FileReport :=
  match vLoop fmt 1 lines with
  | Except.error e => Except.error e
  | Except.ok r =>
    Except.ok
      { valid := r.2.1 == 0
        total := lines.length
        validExamples := r.1
        invalidExamples := r.2.1
        errors := r.2.2.take 10 }

/-- Classification of one line as the loop counts it: a line is valid
when it parses and passes the schema check. -/
def lineValid (fmt : String) (l : Option Json) : Bool :=
  match l with
  | none => false
  | some j =>
    match validateExample fmt j with
    | Except.ok v => v.1
    | Except.error _ => false

/-- A line is harmless when it either fails to parse or parses to a
dict: on such lines the schema check never raises. -/
def lineIsDictOrBad (l : Option Json) : Bool :=
  match l with
  | none => true
  | some (Json.obj _) => true
  | some _ => false

/-! ## Dataset splitter (`src/data/dataset_builder.py`) -/

/-- The tolerance `1e-6` of the ratio-sum check. -/
def tol : ℚ := 1 / 1000000

/-- Model of the Python `int()` conversion on an exact numeric value:
truncation toward zero. -/
def pyInt (q : ℚ) : Int :=
  q.num.tdiv (q.den : Int)

/-- Normalization of one slice index by Python slicing rules: negative
indices count from the end, and everything is clamped to `[0, n]`. -/
def pyNorm (n : Nat) (i : Int) : Nat :=
  if i < 0 then (i + n).toNat else min n i.toNat

/-- Model of the Python slice `xs[a:b]`. -/
def pySlice (xs : List α) (a b : Int) : List α :=
  (xs.drop (pyNorm xs.length a)).take (pyNorm xs.length b - pyNorm xs.length a)

/-- The configured split ratios. -/
structure SplitRatios where
  train : ℚ
  test : ℚ
  valid : ℚ

/-- One step of the linear congruential generator modelling the seeded
pseudo-random stream of the `random` module (64-bit state). -/
def lcgNext (s : Nat) : Nat :=
  (6364136223846793005 * s + 1442695040888963407) % 18446744073709551616

/-- Draw a number below `n` and return it with the advanced state. -/
def randBelow (s : Nat) (n : Nat) : Nat × Nat :=
  let s2 := lcgNext s
  (s2 % n, s2)

/-- Exchange the elements at positions `i` and `j` of a list (the
in-place swap of the Fisher-Yates loop). -/
def listSwap (l : List α) (i j : Nat) : List α :=
  match l[i]?, l[j]? with
  | some a, some b => (l.set i b).set j a
  | _, _ => l

/-- The Fisher-Yates loop of `random.shuffle`: for `i` descending from
`n - 1` to `1`, draw `j` below `i + 1` and swap positions `i` and `j`. -/
def fyGo : Nat → Nat → List α → List α
  | 0, _, l => l
  | i + 1, s, l =>
    let p := randBelow s (i + 2)
    fyGo i p.2 (listSwap l (i + 1) p.1)

/-- Model of `random.shuffle` after `random.seed(seed)`: a deterministic
seeded permutation of the list (the Mersenne-Twister stream is modelled
by the linear congruential generator; the properties at issue -
determinism in the seed and being a permutation - are preserved). -/
def fisherYates (seed : Nat) (l : List α) : List α :=
  fyGo (l.length - 1) seed l

/-- Model of `random.seed`: the global generator state is replaced by a
state derived from the seed alone. -/
def seedState (n : Nat) : Nat := n

/-- The body of `DatasetBuilder.create_splits` after the shuffle: the
ratio-sum guard (`raise ValueError` unless the absolute difference from
1.0 is below 1e-6) followed by the three Python slices at the integer
indices derived from the ratios. -/
def createSplitsCore (r : SplitRatios) (xs : List α) : Except String (List α × List α × List α) :=
  if tol ≤ |r.train + r.test + r.valid - 1| then
    Except.error ("Split ratios must sum to 1.0")
  else
    let total := xs.length
    let trainEnd : Int := pyInt ((total : ℚ) * r.train)
    let testEnd : Int := trainEnd + pyInt ((total : ℚ) * r.test)
    Except.ok (pySlice xs 0 trainEnd, pySlice xs trainEnd testEnd, pySlice xs testEnd (total : Int))

/-- Model of a call to `DatasetBuilder.create_splits`: `rng` is the
incoming state of the global random generator, `seed` the configured
random seed.  The first component of the result is the content of the
argument list object after the call: the list is shuffled in place
before the ratio validation, in the error branch as well.  The second
component is the returned triple or the raised `ValueError`. -/
def createSplitsFull (rng : Nat) (seed : Nat) (r : SplitRatios) (xs : List α) :
    List α × Except String (List α × List α × List α) :=
  let st := seedState seed
  let shuffled := fisherYates st xs
  (shuffled, createSplitsCore r shuffled)

/-! ## Evaluator and metric stubs (`src/evaluation/`) -/

/-- Model of `HirnuEvaluator.generate_text`: an unimplemented
placeholder returning the empty string. -/
def generateText (prompt : String) (maxTokens : Nat) (temperature : ℚ) : String :=
  ""

/-- Model of `TranslationEvaluator.translate`: builds a prompt for the
two supported language pairs and returns the placeholder empty string;
any other pair raises `ValueError`. -/
def translate (text : String) (sourceLang targetLang : String) (maxTokens : Nat) :
    Except String String :=
  if sourceLang = "english" ∧ targetLang = "hirnu" then
    Except.ok ""
  else if sourceLang = "hirnu" ∧ targetLang = "english" then
    Except.ok ""
  else
    Except.error ("Unsupported language pair")

/-- Model of `HirnuMetrics.bleu_score`: raises on a length mismatch and
otherwise returns the placeholder score 0.0. -/
def bleuScore (predictions references : List String) (maxN : Nat) : Except String ℚ :=
  if predictions.length ≠ references.length then
    Except.error ("Predictions and references must have same length")
  else
    Except.ok 0

/-! ## Early stopping (`src/training/callbacks.py`) -/

/-- The two monitoring modes of `EarlyStoppingCallback`. -/
inductive ESMode where
  | min : ESMode
  | max : ESMode
deriving DecidableEq

/-- Configuration of `EarlyStoppingCallback`. -/
structure ESConfig where
  patience : Nat
  minDelta : ℚ
  metric : String
  mode : ESMode

/-- Mutable state of `EarlyStoppingCallback`.  `bestValue = none` models
the initial infinite best (`inf` in mode min, `-inf` in mode max). -/
structure ESState where
  bestValue : Option ℚ
  wait : Nat
  stoppedEpoch : Int
deriving DecidableEq

/-- The state set up by the constructor. -/
def initES : ESState :=
  { bestValue := none, wait := 0, stoppedEpoch := 0 }

/-- Model of `EarlyStoppingCallback._is_improvement`: any finite value
improves on the initial infinity; otherwise strict comparison against
the best value offset by `min_delta`. -/
def isImprovement (cfg : ESConfig) (best : Option ℚ) (current : ℚ) : Bool :=
  match cfg.mode, best with
  | ESMode.min, none => true
  | ESMode.min, some b => decide (current < b - cfg.minDelta)
  | ESMode.max, none => true
  | ESMode.max, some b => decide (b + cfg.minDelta < current)

/-- Model of `EarlyStoppingCallback.on_epoch_end`: a missing logs dict or
a missing monitored metric leaves the state unchanged; an improvement
stores the new best and resets the wait counter; otherwise the wait
counter increases and, at the patience threshold, the stopped epoch is
recorded. -/
def onEpochEnd (cfg : ESConfig) (st : ESState) (epoch : Int)
    (logs : Option (List (String × ℚ))) : ESState :=
  match logs with
  | none => st
  | some lg =>
    match lg.lookup cfg.metric with
    | none => st
    | some current =>
      if isImprovement cfg st.bestValue current then
        { st with bestValue := some current, wait := 0 }
      else
        let w := st.wait + 1
        if cfg.patience ≤ w then
          { bestValue := st.bestValue, wait := w, stoppedEpoch := epoch }
        else
          { st with wait := w }

/-- A whole sequence of `on_epoch_end` calls. -/
def runEpochs (cfg : ESConfig) (st : ESState)
    (calls : List (Int × Option (List (String × ℚ)))) : ESState :=
  calls.foldl (fun s c => onEpochEnd cfg s c.1 c.2) st

/-- Ordering on best values in mode min: `none` is the initial plus
infinity, above every finite value. -/
def bestLeMin (x y : Option ℚ) : Prop :=
  match x, y with
  | _, none => True
  | none, some _ => False
  | some a, some b => a ≤ b

/-- Ordering on best values in mode max: `none` is the initial minus
infinity, below every finite value. -/
def bestGeMax (x y : Option ℚ) : Prop :=
  match x, y with
  | _, none => True
  | none, some _ => False
  | some a, some b => b ≤ a

instance : DecidablePred (fun p : Option ℚ × Option ℚ => bestLeMin p.1 p.2) := by
  intro p
  unfold bestLeMin
  rcases p with ⟨_ | a, _ | b⟩ <;> simp <;> infer_instance

instance : DecidablePred (fun p : Option ℚ × Option ℚ => bestLeMin p.1 p.2) := by
  intro p
  unfold bestLeMin
  rcases p with ⟨_ | a, _ | b⟩ <;> simp <;> infer_instance

instance : DecidablePred (fun p : Option ℚ × Option ℚ => bestGeMax p.1 p.2) := by
  intro p
  unfold bestGeMax
  rcases p with ⟨_ | a, _ | b⟩ <;> simp <;> infer_instance

deriving instance DecidableEq for Except

/-! ## Helper lemmas: the shuffle is a permutation -/

theorem cons_set_perm {α : Type u} :
    ∀ (xs : List α) (k : Nat) (b x : α), xs[k]? = some b →
      (b :: xs.set k x).Perm (x :: xs)
  | [], k, b, x, h => by simp at h
  | y :: t, 0, b, x, h => by
    simp only [List.getElem?_cons_zero, Option.some.injEq] at h
    subst h
    simpa using List.Perm.swap x y t
  | y :: t, k + 1, b, x, h => by
    simp only [List.getElem?_cons_succ] at h
    have ih := cons_set_perm t k b x h
    have h3 : (b :: y :: t.set k x).Perm (x :: y :: t) :=
      ((List.Perm.swap y b _).trans (List.Perm.cons y ih)).trans (List.Perm.swap x y t)
    simpa using h3

theorem set_set_perm_aux {α : Type u} :
    ∀ (l : List α) (i j : Nat) (a b : α), l[i]? = some a → l[j]? = some b →
      ((l.set i b).set j a).Perm l
  | [], i, j, a, b, h1, h2 => by simp at h1
  | y :: t, 0, 0, a, b, h1, h2 => by
    simp only [List.getElem?_cons_zero, Option.some.injEq] at h1 h2
    subst h1; subst h2
    simp
  | y :: t, 0, j + 1, a, b, h1, h2 => by
    simp only [List.getElem?_cons_zero, Option.some.injEq] at h1
    simp only [List.getElem?_cons_succ] at h2
    subst h1
    simpa using cons_set_perm t j b _ h2
  | y :: t, i + 1, 0, a, b, h1, h2 => by
    simp only [List.getElem?_cons_zero, Option.some.injEq] at h2
    simp only [List.getElem?_cons_succ] at h1
    subst h2
    simpa using cons_set_perm t i a _ h1
  | y :: t, i + 1, j + 1, a, b, h1, h2 => by
    simp only [List.getElem?_cons_succ] at h1 h2
    simpa using List.Perm.cons y (set_set_perm_aux t i j a b h1 h2)

theorem listSwap_perm {α : Type u} (l : List α) (i j : Nat) :
    (listSwap l i j).Perm l := by
  unfold listSwap
  cases h1 : l[i]? with
  | none => exact List.Perm.refl l
  | some a =>
    cases h2 : l[j]? with
    | none => exact List.Perm.refl l
    | some b => exact set_set_perm_aux l i j a b h1 h2

theorem fyGo_perm {α : Type u} :
    ∀ (n s : Nat) (l : List α), (fyGo n s l).Perm l
  | 0, _, l => List.Perm.refl l
  | n + 1, s, l =>
    List.Perm.trans
      (fyGo_perm n (randBelow s (n + 2)).2 (listSwap l (n + 1) (randBelow s (n + 2)).1))
      (listSwap_perm l (n + 1) (randBelow s (n + 2)).1)

theorem fisherYates_perm {α : Type u} (seed : Nat) (l : List α) :
    (fisherYates seed l).Perm l :=
  fyGo_perm (l.length - 1) seed l

/-! ## Helper lemmas: Python slices with nonnegative indices partition the list -/

theorem pyNorm_zero (n : Nat) : pyNorm n 0 = 0 := by
  simp [pyNorm]

theorem pyNorm_len (n : Nat) : pyNorm n (n : Int) = n := by
  simp [pyNorm]

theorem pyNorm_le (n : Nat) (i : Int) : pyNorm n i ≤ n := by
  unfold pyNorm
  split <;> omega

theorem pyNorm_mono (n : Nat) {a b : Int} (h0 : 0 ≤ a) (hab : a ≤ b) :
    pyNorm n a ≤ pyNorm n b := by
  unfold pyNorm
  split <;> split <;> omega

theorem pySlice_partition {α : Type u} (xs : List α) (a b : Int)
    (h0 : 0 ≤ a) (hab : a ≤ b) :
    pySlice xs 0 a ++ (pySlice xs a b ++ pySlice xs b (xs.length : Int)) = xs := by
  unfold pySlice
  rw [pyNorm_zero, pyNorm_len]
  have hmono := pyNorm_mono xs.length h0 hab
  have hble := pyNorm_le xs.length b
  have hdrop : xs.drop (pyNorm xs.length b) =
      (xs.drop (pyNorm xs.length a)).drop (pyNorm xs.length b - pyNorm xs.length a) := by
    rw [List.drop_drop]
    congr 1
    omega
  have hlen : (xs.drop (pyNorm xs.length b)).length ≤ xs.length - pyNorm xs.length b := by
    simp
  rw [List.take_of_length_le hlen, List.drop_zero, Nat.sub_zero, hdrop,
    List.take_append_drop, List.take_append_drop]

theorem pyInt_nonneg {q : ℚ} (h : 0 ≤ q) : 0 ≤ pyInt q := by
  unfold pyInt
  exact Int.tdiv_nonneg (Rat.num_nonneg.mpr h) (by positivity)

theorem createSplitsCore_ok {α : Type u} (r : SplitRatios) (xs : List α)
    (hsum : |r.train + r.test + r.valid - 1| < tol) :
    createSplitsCore r xs =
      Except.ok
        ( pySlice xs 0 (pyInt ((xs.length : ℚ) * r.train))
        , pySlice xs (pyInt ((xs.length : ℚ) * r.train))
            (pyInt ((xs.length : ℚ) * r.train) + pyInt ((xs.length : ℚ) * r.test))
        , pySlice xs (pyInt ((xs.length : ℚ) * r.train) + pyInt ((xs.length : ℚ) * r.test))
            (xs.length : Int) ) := by
  unfold createSplitsCore
  rw [if_neg (not_le.mpr hsum)]

theorem createSplitsCore_partition {α : Type u} (r : SplitRatios) (xs : List α)
    (htr : 0 ≤ r.train) (hte : 0 ≤ r.test)
    (hsum : |r.train + r.test + r.valid - 1| < tol) :
    ∃ t te v, createSplitsCore r xs = Except.ok (t, te, v) ∧ t ++ (te ++ v) = xs := by
  refine ⟨_, _, _, createSplitsCore_ok r xs hsum, ?_⟩
  have h1 : (0 : Int) ≤ pyInt ((xs.length : ℚ) * r.train) :=
    pyInt_nonneg (by positivity)
  have h2 : (0 : Int) ≤ pyInt ((xs.length : ℚ) * r.test) :=
    pyInt_nonneg (by positivity)
  exact pySlice_partition xs _ _ h1 (by omega)

/-! ## Claim C1: the three splits partition the input -/

/-- Claim C1, as stated, is false: the ratio configuration `(2, -2, 1)`
sums to exactly 1.0 (so the guard passes), yet on a four-element input
the Python slices taken at the out-of-range and negative derived indices
overlap, so the three returned lists have lengths summing to 8 instead
of 4 and their concatenation is not a permutation of the input. -/
theorem createSplits_partition_counterexample :
    |(SplitRatios.mk (2 : ℚ) (-2) 1).train + (SplitRatios.mk (2 : ℚ) (-2) 1).test +
        (SplitRatios.mk (2 : ℚ) (-2) 1).valid - 1| < tol ∧
    (createSplitsFull 0 42 (SplitRatios.mk (2 : ℚ) (-2) 1) [0, 1, 2, 3]).2 =
      Except.ok ([0, 3, 2, 1], [], [0, 3, 2, 1]) ∧
    ¬ (([0, 3, 2, 1] ++ ([] ++ [0, 3, 2, 1]) : List Nat).length = [0, 1, 2, 3].length) ∧
    ¬ (([0, 3, 2, 1] ++ ([] ++ [0, 3, 2, 1]) : List Nat).Perm [0, 1, 2, 3]) := by
  have hguard : |(SplitRatios.mk (2 : ℚ) (-2) 1).train + (SplitRatios.mk (2 : ℚ) (-2) 1).test +
      (SplitRatios.mk (2 : ℚ) (-2) 1).valid - 1| < tol := by norm_num [tol]
  refine ⟨hguard, ?_, by decide, by decide⟩
  have hsh : fisherYates (seedState 42) ([0, 1, 2, 3] : List Nat) = [0, 3, 2, 1] := by decide
  have hok := createSplitsCore_ok (SplitRatios.mk (2 : ℚ) (-2) 1) ([0, 3, 2, 1] : List Nat) hguard
  have hA : pyInt ((([0, 3, 2, 1] : List Nat).length : ℚ) *
      (SplitRatios.mk (2 : ℚ) (-2) 1).train) = 8 := by
    norm_num [pyInt]
  have hB : pyInt ((([0, 3, 2, 1] : List Nat).length : ℚ) *
      (SplitRatios.mk (2 : ℚ) (-2) 1).test) = -8 := by
    norm_num [pyInt]
  rw [hA, hB] at hok
  rw [show (createSplitsFull 0 42 (SplitRatios.mk (2 : ℚ) (-2) 1) ([0, 1, 2, 3] : List Nat)).2 =
      createSplitsCore (SplitRatios.mk (2 : ℚ) (-2) 1)
        (fisherYates (seedState 42) [0, 1, 2, 3]) from rfl,
    hsh, hok]
  decide

/-- Claim C1 (amended: the configured ratios are in addition
nonnegative): for every input list whose configured split ratios are
nonnegative and sum to 1.0 within 1e-6, `create_splits` returns three
lists whose lengths sum to the input length and whose concatenation is a
permutation of the input. -/
theorem createSplits_partition_of_nonneg {α : Type u} (rng seed : Nat) (r : SplitRatios)
    (xs : List α) (htr : 0 ≤ r.train) (hte : 0 ≤ r.test) (hva : 0 ≤ r.valid)
    (hsum : |r.train + r.test + r.valid - 1| < tol) :
    ∃ t te v, (createSplitsFull rng seed r xs).2 = Except.ok (t, te, v) ∧
      t.length + te.length + v.length = xs.length ∧
      (t ++ (te ++ v)).Perm xs := by
  have hsh := fisherYates_perm (seedState seed) xs
  obtain ⟨t, te, v, hok, hcat⟩ :=
    createSplitsCore_partition r (fisherYates (seedState seed) xs) htr hte hsum
  have hperm : (t ++ (te ++ v)).Perm xs := by rw [hcat]; exact hsh
  refine ⟨t, te, v, ?_, ?_, hperm⟩
  · simpa [createSplitsFull] using hok
  · have hlen := hperm.length_eq
    simpa [List.length_append, Nat.add_assoc] using hlen

/-- Witness for `createSplits_partition_of_nonneg` at the repository
default ratios 0.8/0.1/0.1 on a ten-element input. -/
theorem createSplits_partition_of_nonneg_witness :
    (0 : ℚ) ≤ 8/10 ∧ (0 : ℚ) ≤ 1/10 ∧ |(8/10 : ℚ) + 1/10 + 1/10 - 1| < tol ∧
    ∃ t te v,
      (createSplitsFull 0 42 (SplitRatios.mk (8/10) (1/10) (1/10))
          [0, 1, 2, 3, 4, 5, 6, 7, 8, 9]).2 = Except.ok (t, te, v) ∧
      t.length + te.length + v.length = 10 ∧
      (t ++ (te ++ v)).Perm [0, 1, 2, 3, 4, 5, 6, 7, 8, 9] := by
  refine ⟨by norm_num, by norm_num, by norm_num [tol], ?_⟩
  have h := createSplits_partition_of_nonneg 0 42 (SplitRatios.mk (8/10) (1/10) (1/10))
    [0, 1, 2, 3, 4, 5, 6, 7, 8, 9] (by norm_num) (by norm_num) (by norm_num)
    (by norm_num [tol])
  simpa using h

/-! ## Claim C2: the ratio-sum guard -/

/-- Claim C2: `create_splits` raises the `ValueError` exactly when the
absolute difference between the sum of the configured train, test and
valid ratios and 1.0 is at least 1e-6, and otherwise returns the three
splits without raising. -/
theorem createSplits_ratio_guard {α : Type u} (rng seed : Nat) (r : SplitRatios)
    (xs : List α) :
    (tol ≤ |r.train + r.test + r.valid - 1| →
      (createSplitsFull rng seed r xs).2 = Except.error ("Split ratios must sum to 1.0")) ∧
    (|r.train + r.test + r.valid - 1| < tol →
      ∃ t te v, (createSplitsFull rng seed r xs).2 = Except.ok (t, te, v)) := by
  constructor
  · intro h
    simp [createSplitsFull, createSplitsCore, if_pos h]
  · intro h
    exact ⟨_, _, _, by simpa [createSplitsFull] using
      createSplitsCore_ok r (fisherYates (seedState seed) xs) h⟩

/-- Witness for `createSplits_ratio_guard`: ratios (1,1,1) raise and the
default ratios (0.8, 0.1, 0.1) return splits. -/
theorem createSplits_ratio_guard_witness :
    (tol ≤ |(1 : ℚ) + 1 + 1 - 1|) ∧
    (createSplitsFull 0 42 (SplitRatios.mk 1 1 1) ([0, 1] : List Nat)).2 =
      Except.error ("Split ratios must sum to 1.0") ∧
    |(8/10 : ℚ) + 1/10 + 1/10 - 1| < tol ∧
    ∃ t te v, (createSplitsFull 0 42 (SplitRatios.mk (8/10) (1/10) (1/10))
      ([0, 1] : List Nat)).2 = Except.ok (t, te, v) := by
  refine ⟨by norm_num [tol], ?_, by norm_num [tol], ?_⟩
  · exact (createSplits_ratio_guard 0 42 (SplitRatios.mk 1 1 1) [0, 1]).1 (by norm_num [tol])
  · exact (createSplits_ratio_guard 0 42 (SplitRatios.mk (8/10) (1/10) (1/10)) [0, 1]).2
      (by norm_num [tol])

/-! ## Claim C6: determinism of the seeded split -/

/-- Claim C6: `create_splits` is deterministic: the seed call resets the
generator, so two runs with the same configured seed and equal input
lists agree on the shuffled list and on the returned triple, whatever
the incoming state of the global random generator was. -/
theorem createSplits_deterministic {α : Type u} (rng₁ rng₂ seed : Nat) (r : SplitRatios)
    (xs ys : List α) (h : xs = ys) :
    createSplitsFull rng₁ seed r xs = createSplitsFull rng₂ seed r ys := by
  subst h
  rfl

/-- Witness for `createSplits_deterministic` on a concrete input with two
different incoming generator states. -/
theorem createSplits_deterministic_witness :
    ([1, 2, 3] : List Nat) = [1, 2, 3] ∧
    createSplitsFull 3 42 (SplitRatios.mk 1 0 0) ([1, 2, 3] : List Nat) =
      createSplitsFull 99 42 (SplitRatios.mk 1 0 0) [1, 2, 3] :=
  ⟨rfl, createSplits_deterministic 3 99 42 (SplitRatios.mk 1 0 0) [1, 2, 3] [1, 2, 3] rfl⟩

/-! ## Claim C8: the input list is shuffled in place, before validation -/

/-- Claim C8, in its final clause, is false as stated: with the ratio
configuration `(2, -2, 1)` (which passes the guard) a successful call
returns splits whose concatenation differs from the shuffled list held
by the caller. -/
theorem createSplits_mutation_counterexample :
    (createSplitsFull 0 42 (SplitRatios.mk (2 : ℚ) (-2) 1) [0, 1, 2, 3]).2 =
      Except.ok ([0, 3, 2, 1], [], [0, 3, 2, 1]) ∧
    ([0, 3, 2, 1] ++ ([] ++ [0, 3, 2, 1]) : List Nat) ≠
      (createSplitsFull 0 42 (SplitRatios.mk (2 : ℚ) (-2) 1) [0, 1, 2, 3]).1 := by
  have hguard : |(SplitRatios.mk (2 : ℚ) (-2) 1).train + (SplitRatios.mk (2 : ℚ) (-2) 1).test +
      (SplitRatios.mk (2 : ℚ) (-2) 1).valid - 1| < tol := by norm_num [tol]
  have hsh : fisherYates (seedState 42) ([0, 1, 2, 3] : List Nat) = [0, 3, 2, 1] := by decide
  have hok := createSplitsCore_ok (SplitRatios.mk (2 : ℚ) (-2) 1) ([0, 3, 2, 1] : List Nat) hguard
  have hA : pyInt ((([0, 3, 2, 1] : List Nat).length : ℚ) *
      (SplitRatios.mk (2 : ℚ) (-2) 1).train) = 8 := by
    norm_num [pyInt]
  have hB : pyInt ((([0, 3, 2, 1] : List Nat).length : ℚ) *
      (SplitRatios.mk (2 : ℚ) (-2) 1).test) = -8 := by
    norm_num [pyInt]
  rw [hA, hB] at hok
  constructor
  · rw [show (createSplitsFull 0 42 (SplitRatios.mk (2 : ℚ) (-2) 1)
        ([0, 1, 2, 3] : List Nat)).2 =
        createSplitsCore (SplitRatios.mk (2 : ℚ) (-2) 1)
          (fisherYates (seedState 42) [0, 1, 2, 3]) from rfl,
      hsh, hok]
    decide
  · rw [show (createSplitsFull 0 42 (SplitRatios.mk (2 : ℚ) (-2) 1)
        ([0, 1, 2, 3] : List Nat)).1 =
        fisherYates (seedState 42) [0, 1, 2, 3] from rfl, hsh]
    decide

/-- Claim C8 (amended: the final clause holds for nonnegative ratios):
`create_splits` shuffles the caller's list in place before validating
the ratio sum, so the list is reordered even when the `ValueError` is
raised, and after a successful call with nonnegative configured ratios
the concatenation of the three returned splits equals the shuffled (not
the original) order of the input. -/
theorem createSplits_mutates_in_place {α : Type u} (rng seed : Nat) (r : SplitRatios)
    (xs : List α) :
    (createSplitsFull rng seed r xs).1 = fisherYates (seedState seed) xs ∧
    (tol ≤ |r.train + r.test + r.valid - 1| →
      (createSplitsFull rng seed r xs).2 = Except.error ("Split ratios must sum to 1.0")) ∧
    (0 ≤ r.train → 0 ≤ r.test → 0 ≤ r.valid →
      ∀ t te v, (createSplitsFull rng seed r xs).2 = Except.ok (t, te, v) →
        t ++ (te ++ v) = (createSplitsFull rng seed r xs).1) := by
  refine ⟨rfl, ?_, ?_⟩
  · intro h
    simp [createSplitsFull, createSplitsCore, if_pos h]
  · intro htr hte hva t te v hok
    by_cases hs : tol ≤ |r.train + r.test + r.valid - 1|
    · exfalso
      have herr : (createSplitsFull rng seed r xs).2 =
          Except.error ("Split ratios must sum to 1.0") := by
        simp [createSplitsFull, createSplitsCore, if_pos hs]
      rw [herr] at hok
      exact Except.noConfusion hok
    · obtain ⟨t2, te2, v2, hok2, hcat⟩ :=
        createSplitsCore_partition r (fisherYates (seedState seed) xs) htr hte (not_le.mp hs)
      have h2 : (createSplitsFull rng seed r xs).2 = Except.ok (t2, te2, v2) := by
        simpa [createSplitsFull] using hok2
      rw [h2] at hok
      simp only [Except.ok.injEq, Prod.mk.injEq] at hok
      obtain ⟨rfl, rfl, rfl⟩ := hok
      exact hcat

/-- Witness for `createSplits_mutates_in_place`: with ratios (1,1,1) the
call raises, yet the caller's four-element list has been reordered. -/
theorem createSplits_mutates_in_place_witness :
    (createSplitsFull 5 42 (SplitRatios.mk 1 1 1) ([0, 1, 2, 3] : List Nat)).1 =
      fisherYates (seedState 42) [0, 1, 2, 3] ∧
    (tol ≤ |(SplitRatios.mk 1 1 1).train + (SplitRatios.mk 1 1 1).test +
      (SplitRatios.mk 1 1 1).valid - 1|) ∧
    (createSplitsFull 5 42 (SplitRatios.mk 1 1 1) ([0, 1, 2, 3] : List Nat)).2 =
      Except.error ("Split ratios must sum to 1.0") ∧
    fisherYates (seedState 42) ([0, 1, 2, 3] : List Nat) ≠ [0, 1, 2, 3] := by
  refine ⟨(createSplits_mutates_in_place 5 42 (SplitRatios.mk 1 1 1) [0, 1, 2, 3]).1,
    by norm_num [tol], ?_, by decide⟩
  exact (createSplits_mutates_in_place 5 42 (SplitRatios.mk 1 1 1) [0, 1, 2, 3]).2.1
    (by norm_num [tol])

/-! ## Claim C7: the evaluation routines are placeholders -/

/-- Claim C7: the generation, translation and BLEU-metric routines are
unimplemented placeholders: `generate_text` returns the empty string for
every prompt, `translate` returns the empty string for both supported
language pairs, and `bleu_score` returns 0.0 for every pair of
equal-length prediction and reference lists. -/
theorem evaluation_stubs_return_empty :
    (∀ (prompt : String) (maxTokens : Nat) (temperature : ℚ),
      generateText prompt maxTokens temperature = "") ∧
    (∀ (text : String) (maxTokens : Nat),
      translate text ("english") ("hirnu") maxTokens = Except.ok "" ∧
      translate text ("hirnu") ("english") maxTokens = Except.ok "") ∧
    (∀ (predictions references : List String) (maxN : Nat),
      predictions.length = references.length →
      bleuScore predictions references maxN = Except.ok 0) := by
  refine ⟨fun _ _ _ => rfl, fun t mt => ⟨?_, ?_⟩, fun p r n h => ?_⟩
  · simp [translate]
  · simp [translate]
  · simp [bleuScore, h]

/-- Witness for `evaluation_stubs_return_empty` at concrete inputs. -/
theorem evaluation_stubs_return_empty_witness :
    generateText ("hello") 100 1 = "" ∧
    translate ("cat") ("english") ("hirnu") 200 = Except.ok "" ∧
    translate ("mau") ("hirnu") ("english") 200 = Except.ok "" ∧
    (["a"] : List String).length = (["b"] : List String).length ∧
    bleuScore ["a"] ["b"] 4 = Except.ok 0 :=
  ⟨evaluation_stubs_return_empty.1 ("hello") 100 1,
   (evaluation_stubs_return_empty.2.1 ("cat") 200).1,
   (evaluation_stubs_return_empty.2.1 ("mau") 200).2,
   rfl,
   evaluation_stubs_return_empty.2.2 ["a"] ["b"] 4 rfl⟩

/-! ## Helper lemmas: the early-stopping state machine -/

theorem bestLeMin_refl (x : Option ℚ) : bestLeMin x x := by
  cases x <;> simp [bestLeMin]

theorem bestGeMax_refl (x : Option ℚ) : bestGeMax x x := by
  cases x <;> simp [bestGeMax]

theorem bestLeMin_trans {x y z : Option ℚ} (h1 : bestLeMin x y) (h2 : bestLeMin y z) :
    bestLeMin x z := by
  cases x <;> cases y <;> cases z <;> simp [bestLeMin] at *
  exact le_trans h1 h2

theorem bestGeMax_trans {x y z : Option ℚ} (h1 : bestGeMax x y) (h2 : bestGeMax y z) :
    bestGeMax x z := by
  cases x <;> cases y <;> cases z <;> simp [bestGeMax] at *
  exact le_trans h2 h1

theorem onEpochEnd_best_min (cfg : ESConfig) (hmode : cfg.mode = ESMode.min)
    (hd : 0 ≤ cfg.minDelta) (st : ESState) (epoch : Int)
    (logs : Option (List (String × ℚ))) :
    bestLeMin (onEpochEnd cfg st epoch logs).bestValue st.bestValue := by
  unfold onEpochEnd
  cases logs with
  | none => exact bestLeMin_refl _
  | some lg =>
    cases hl : lg.lookup cfg.metric with
    | none => simp only [hl]; exact bestLeMin_refl _
    | some current =>
      simp only [hl]
      by_cases himp : isImprovement cfg st.bestValue current = true
      · rw [if_pos himp]
        cases hb : st.bestValue with
        | none => simp [bestLeMin]
        | some b =>
          simp only [isImprovement, hmode, hb, decide_eq_true_eq] at himp
          simp only [bestLeMin]
          linarith
      · rw [if_neg himp]
        by_cases hp : cfg.patience ≤ st.wait + 1
        · rw [if_pos hp]; exact bestLeMin_refl _
        · rw [if_neg hp]; exact bestLeMin_refl _

theorem onEpochEnd_best_max (cfg : ESConfig) (hmode : cfg.mode = ESMode.max)
    (hd : 0 ≤ cfg.minDelta) (st : ESState) (epoch : Int)
    (logs : Option (List (String × ℚ))) :
    bestGeMax (onEpochEnd cfg st epoch logs).bestValue st.bestValue := by
  unfold onEpochEnd
  cases logs with
  | none => exact bestGeMax_refl _
  | some lg =>
    cases hl : lg.lookup cfg.metric with
    | none => simp only [hl]; exact bestGeMax_refl _
    | some current =>
      simp only [hl]
      by_cases himp : isImprovement cfg st.bestValue current = true
      · rw [if_pos himp]
        cases hb : st.bestValue with
        | none => simp [bestGeMax]
        | some b =>
          simp only [isImprovement, hmode, hb, decide_eq_true_eq] at himp
          simp only [bestGeMax]
          linarith
      · rw [if_neg himp]
        by_cases hp : cfg.patience ≤ st.wait + 1
        · rw [if_pos hp]; exact bestGeMax_refl _
        · rw [if_neg hp]; exact bestGeMax_refl _

theorem runEpochs_best_min (cfg : ESConfig) (hmode : cfg.mode = ESMode.min)
    (hd : 0 ≤ cfg.minDelta) :
    ∀ (calls : List (Int × Option (List (String × ℚ)))) (st : ESState),
      bestLeMin (runEpochs cfg st calls).bestValue st.bestValue := by
  intro calls
  induction calls with
  | nil => intro st; exact bestLeMin_refl _
  | cons c cs ih =>
    intro st
    have hstep := onEpochEnd_best_min cfg hmode hd st c.1 c.2
    have htail := ih (onEpochEnd cfg st c.1 c.2)
    exact bestLeMin_trans htail hstep

theorem runEpochs_best_max (cfg : ESConfig) (hmode : cfg.mode = ESMode.max)
    (hd : 0 ≤ cfg.minDelta) :
    ∀ (calls : List (Int × Option (List (String × ℚ)))) (st : ESState),
      bestGeMax (runEpochs cfg st calls).bestValue st.bestValue := by
  intro calls
  induction calls with
  | nil => intro st; exact bestGeMax_refl _
  | cons c cs ih =>
    intro st
    have hstep := onEpochEnd_best_max cfg hmode hd st c.1 c.2
    have htail := ih (onEpochEnd cfg st c.1 c.2)
    exact bestGeMax_trans htail hstep

theorem onEpochEnd_best_change (cfg : ESConfig) (st : ESState) (epoch : Int)
    (logs : Option (List (String × ℚ)))
    (h : (onEpochEnd cfg st epoch logs).bestValue ≠ st.bestValue) :
    ∃ lg current, logs = some lg ∧ lg.lookup cfg.metric = some current ∧
      isImprovement cfg st.bestValue current = true ∧
      (onEpochEnd cfg st epoch logs).bestValue = some current := by
  cases logs with
  | none => simp [onEpochEnd] at h
  | some lg =>
    cases hl : lg.lookup cfg.metric with
    | none => simp [onEpochEnd, hl] at h
    | some current =>
      by_cases himp : isImprovement cfg st.bestValue current = true
      · exact ⟨lg, current, rfl, hl, himp, by simp [onEpochEnd, hl, if_pos himp]⟩
      · exfalso
        apply h
        simp only [onEpochEnd, hl, if_neg himp]
        by_cases hp : cfg.patience ≤ st.wait + 1
        · rw [if_pos hp]
        · rw [if_neg hp]

theorem onEpochEnd_wait (cfg : ESConfig) (st : ESState) (epoch : Int)
    (lg : List (String × ℚ)) (current : ℚ)
    (hl : lg.lookup cfg.metric = some current) :
    (isImprovement cfg st.bestValue current = true ∧
      (onEpochEnd cfg st epoch (some lg)).wait = 0) ∨
    (isImprovement cfg st.bestValue current = false ∧
      (onEpochEnd cfg st epoch (some lg)).wait = st.wait + 1) := by
  by_cases himp : isImprovement cfg st.bestValue current = true
  · left
    exact ⟨himp, by simp [onEpochEnd, hl, if_pos himp]⟩
  · right
    refine ⟨by simpa using himp, ?_⟩
    simp only [onEpochEnd, hl, if_neg himp]
    by_cases hp : cfg.patience ≤ st.wait + 1
    · rw [if_pos hp]
    · rw [if_neg hp]

/-! ## Claim C10: the early-stopping invariant -/

/-- Claim C10, as stated, is false for a negative `min_delta` (the field
is an arbitrary configured float): with `min_delta = -10` in mode min, a
metric value of 5 counts as an improvement over a best value of 0, so
`best_value` increases. -/
theorem earlyStopping_monotone_counterexample :
    (ESConfig.mk 3 (-10) ("loss") ESMode.min).mode = ESMode.min ∧
    (onEpochEnd (ESConfig.mk 3 (-10) ("loss") ESMode.min) initES 1
      (some [(("loss"), 0)])).bestValue = some 0 ∧
    (onEpochEnd (ESConfig.mk 3 (-10) ("loss") ESMode.min)
      (onEpochEnd (ESConfig.mk 3 (-10) ("loss") ESMode.min) initES 1
        (some [(("loss"), 0)])) 2 (some [(("loss"), 5)])).bestValue = some 5 ∧
    ¬ bestLeMin (some (5 : ℚ)) (some 0) := by
  have h1 : (onEpochEnd (ESConfig.mk 3 (-10) ("loss") ESMode.min) initES 1
      (some [(("loss"), 0)])).bestValue = some 0 := by
    simp [onEpochEnd, isImprovement, initES, List.lookup]
  refine ⟨rfl, h1, ?_, by simp [bestLeMin]⟩
  have hst : onEpochEnd (ESConfig.mk 3 (-10) ("loss") ESMode.min) initES 1
      (some [(("loss"), 0)]) = { bestValue := some 0, wait := 0, stoppedEpoch := 0 } := by
    simp [onEpochEnd, isImprovement, initES, List.lookup]
  rw [hst]
  have himp : isImprovement (ESConfig.mk 3 (-10) ("loss") ESMode.min) (some 0) 5 = true := by
    simp only [isImprovement, decide_eq_true_eq]
    norm_num
  simp [onEpochEnd, List.lookup, himp]

/-- Claim C10 (amended: the configured `min_delta` is in addition
nonnegative): across every sequence of `on_epoch_end` calls, in mode min
the best value never increases and in mode max it never decreases; the
best value changes only when the monitored metric improves on it by more
than `min_delta`; and on every call with the metric present the wait
counter either resets to 0 (on improvement) or increases by exactly 1. -/
theorem earlyStopping_invariant (cfg : ESConfig) (hd : 0 ≤ cfg.minDelta)
    (st : ESState) (calls : List (Int × Option (List (String × ℚ))))
    (epoch : Int) (logs : Option (List (String × ℚ))) :
    (cfg.mode = ESMode.min → bestLeMin (runEpochs cfg st calls).bestValue st.bestValue) ∧
    (cfg.mode = ESMode.max → bestGeMax (runEpochs cfg st calls).bestValue st.bestValue) ∧
    ((onEpochEnd cfg st epoch logs).bestValue ≠ st.bestValue →
      ∃ lg current, logs = some lg ∧ lg.lookup cfg.metric = some current ∧
        isImprovement cfg st.bestValue current = true ∧
        (onEpochEnd cfg st epoch logs).bestValue = some current) ∧
    (∀ lg current, logs = some lg → lg.lookup cfg.metric = some current →
      ((isImprovement cfg st.bestValue current = true ∧
          (onEpochEnd cfg st epoch logs).wait = 0) ∨
        (isImprovement cfg st.bestValue current = false ∧
          (onEpochEnd cfg st epoch logs).wait = st.wait + 1))) := by
  refine ⟨fun hmode => runEpochs_best_min cfg hmode hd calls st,
    fun hmode => runEpochs_best_max cfg hmode hd calls st,
    onEpochEnd_best_change cfg st epoch logs,
    ?_⟩
  intro lg current hlg hl
  subst hlg
  exact onEpochEnd_wait cfg st epoch lg current hl

/-- Witness for `earlyStopping_invariant` at the default configuration
(patience 3, min_delta 0.001, metric loss, mode min). -/
theorem earlyStopping_invariant_witness :
    (0 : ℚ) ≤ (ESConfig.mk 3 (1/1000) ("loss") ESMode.min).minDelta ∧
    (ESConfig.mk 3 (1/1000) ("loss") ESMode.min).mode = ESMode.min ∧
    bestLeMin (runEpochs (ESConfig.mk 3 (1/1000) ("loss") ESMode.min) initES
      [(1, some [(("loss"), 5)])]).bestValue initES.bestValue ∧
    some [(("loss"), (5 : ℚ))] = some [(("loss"), (5 : ℚ))] ∧
    List.lookup ("loss") [(("loss"), (5 : ℚ))] = some 5 ∧
    ((isImprovement (ESConfig.mk 3 (1/1000) ("loss") ESMode.min) initES.bestValue 5 = true ∧
        (onEpochEnd (ESConfig.mk 3 (1/1000) ("loss") ESMode.min) initES 1
          (some [(("loss"), 5)])).wait = 0) ∨
      (isImprovement (ESConfig.mk 3 (1/1000) ("loss") ESMode.min) initES.bestValue 5 = false ∧
        (onEpochEnd (ESConfig.mk 3 (1/1000) ("loss") ESMode.min) initES 1
          (some [(("loss"), 5)])).wait = initES.wait + 1)) := by
  have hd : (0 : ℚ) ≤ (ESConfig.mk 3 (1/1000) ("loss") ESMode.min).minDelta := by norm_num
  have hlk : List.lookup ("loss") [(("loss"), (5 : ℚ))] = some 5 := by simp
  have h := earlyStopping_invariant (ESConfig.mk 3 (1/1000) ("loss") ESMode.min) hd initES
    [(1, some [(("loss"), 5)])] 1 (some [(("loss"), 5)])
  exact ⟨hd, rfl, h.1 rfl, rfl, hlk, h.2.2.2 [(("loss"), 5)] 5 rfl hlk⟩

/-! ## Helper lemmas: the JSONL validator loop -/

theorem validateExample_obj_ok (fmt : String) (kvs : List (String × Json)) :
    ∃ v, validateExample fmt (Json.obj kvs) = Except.ok v := by
  cases hx : validateExample fmt (Json.obj kvs) with
  | ok v => exact ⟨v, rfl⟩
  | error e =>
    exfalso
    unfold validateExample at hx
    split_ifs at hx
    · cases hm : List.lookup ("messages") kvs with
      | none => simp [validateChatFormat, pyIn, pySub, hm] at hx
      | some m => cases m <;> simp [validateChatFormat, pyIn, pySub, hm] at hx
    · cases hp : List.lookup ("prompt") kvs with
      | none => simp [validateCompletionFormat, pyIn, hp] at hx
      | some vp =>
        cases hc : List.lookup ("completion") kvs with
        | none => simp [validateCompletionFormat, pyIn, hp, hc] at hx
        | some vc => simp [validateCompletionFormat, pyIn, hp, hc] at hx
    · cases ht : List.lookup ("text") kvs with
      | none => simp [validateTextFormat, pyIn, pySub, ht] at hx
      | some v => cases v <;> simp [validateTextFormat, pyIn, pySub, ht] at hx

theorem vLoop_none_err (fmt : String) (i : Nat) (rest : List (Option Json)) (e : String)
    (h : vLoop fmt (i + 1) rest = Except.error e) :
    vLoop fmt i (none :: rest) = Except.error e := by
  rw [show vLoop fmt i (none :: rest) =
      (match vLoop fmt (i + 1) rest with
        | Except.error e => Except.error e
        | Except.ok r => Except.ok (r.1, r.2.1 + 1, lineErr i ("Invalid JSON") :: r.2.2))
    from rfl, h]

theorem vLoop_none_ok (fmt : String) (i : Nat) (rest : List (Option Json))
    (r : Nat × Nat × List String) (h : vLoop fmt (i + 1) rest = Except.ok r) :
    vLoop fmt i (none :: rest) =
      Except.ok (r.1, r.2.1 + 1, lineErr i ("Invalid JSON") :: r.2.2) := by
  rw [show vLoop fmt i (none :: rest) =
      (match vLoop fmt (i + 1) rest with
        | Except.error e => Except.error e
        | Except.ok r => Except.ok (r.1, r.2.1 + 1, lineErr i ("Invalid JSON") :: r.2.2))
    from rfl, h]

theorem vLoop_some_err1 (fmt : String) (i : Nat) (j : Json) (rest : List (Option Json))
    (e : String) (h : validateExample fmt j = Except.error e) :
    vLoop fmt i (some j :: rest) = Except.error e := by
  rw [show vLoop fmt i (some j :: rest) =
      (match validateExample fmt j with
        | Except.error e => Except.error e
        | Except.ok v =>
          match vLoop fmt (i + 1) rest with
          | Except.error e => Except.error e
          | Except.ok r =>
            if v.1 then Except.ok (r.1 + 1, r.2.1, r.2.2)
            else Except.ok (r.1, r.2.1 + 1, lineErr i (v.2.getD ("")) :: r.2.2))
    from rfl, h]

theorem vLoop_some_err2 (fmt : String) (i : Nat) (j : Json) (rest : List (Option Json))
    (v : Bool × Option String) (e : String) (h1 : validateExample fmt j = Except.ok v)
    (h2 : vLoop fmt (i + 1) rest = Except.error e) :
    vLoop fmt i (some j :: rest) = Except.error e := by
  rw [show vLoop fmt i (some j :: rest) =
      (match validateExample fmt j with
        | Except.error e => Except.error e
        | Except.ok v =>
          match vLoop fmt (i + 1) rest with
          | Except.error e => Except.error e
          | Except.ok r =>
            if v.1 then Except.ok (r.1 + 1, r.2.1, r.2.2)
            else Except.ok (r.1, r.2.1 + 1, lineErr i (v.2.getD ("")) :: r.2.2))
    from rfl, h1, h2]

theorem vLoop_some_ok (fmt : String) (i : Nat) (j : Json) (rest : List (Option Json))
    (v : Bool × Option String) (r : Nat × Nat × List String)
    (h1 : validateExample fmt j = Except.ok v) (h2 : vLoop fmt (i + 1) rest = Except.ok r) :
    vLoop fmt i (some j :: rest) =
      (if v.1 then Except.ok (r.1 + 1, r.2.1, r.2.2)
       else Except.ok (r.1, r.2.1 + 1, lineErr i (v.2.getD ("")) :: r.2.2)) := by
  rw [show vLoop fmt i (some j :: rest) =
      (match validateExample fmt j with
        | Except.error e => Except.error e
        | Except.ok v =>
          match vLoop fmt (i + 1) rest with
          | Except.error e => Except.error e
          | Except.ok r =>
            if v.1 then Except.ok (r.1 + 1, r.2.1, r.2.2)
            else Except.ok (r.1, r.2.1 + 1, lineErr i (v.2.getD ("")) :: r.2.2))
    from rfl, h1, h2]

theorem vLoop_ok_inv (fmt : String) :
    ∀ (lines : List (Option Json)) (i : Nat) (v iv : Nat) (errs : List String),
      vLoop fmt i lines = Except.ok (v, iv, errs) →
      v + iv = lines.length ∧ errs.length = iv := by
  intro lines
  induction lines with
  | nil =>
    intro i v iv errs h
    simp only [vLoop, Except.ok.injEq, Prod.mk.injEq] at h
    obtain ⟨rfl, rfl, rfl⟩ := h
    simp
  | cons l rest ih =>
    intro i v iv errs h
    cases l with
    | none =>
      cases hr : vLoop fmt (i + 1) rest with
      | error e => rw [vLoop_none_err fmt i rest e hr] at h; exact Except.noConfusion h
      | ok r =>
        rw [vLoop_none_ok fmt i rest r hr] at h
        simp only [Except.ok.injEq, Prod.mk.injEq] at h
        obtain ⟨rfl, rfl, rfl⟩ := h
        obtain ⟨h1, h2⟩ := ih (i + 1) r.1 r.2.1 r.2.2 (by rw [hr])
        constructor
        · simp only [List.length_cons]; omega
        · simp [h2]
    | some j =>
      cases hv : validateExample fmt j with
      | error e => rw [vLoop_some_err1 fmt i j rest e hv] at h; exact Except.noConfusion h
      | ok v0 =>
        cases hr : vLoop fmt (i + 1) rest with
        | error e =>
          rw [vLoop_some_err2 fmt i j rest v0 e hv hr] at h
          exact Except.noConfusion h
        | ok r =>
          rw [vLoop_some_ok fmt i j rest v0 r hv hr] at h
          obtain ⟨h1, h2⟩ := ih (i + 1) r.1 r.2.1 r.2.2 (by rw [hr])
          by_cases hb : v0.1 = true
          · rw [if_pos hb] at h
            simp only [Except.ok.injEq, Prod.mk.injEq] at h
            obtain ⟨rfl, rfl, rfl⟩ := h
            constructor
            · simp only [List.length_cons]; omega
            · exact h2
          · rw [if_neg hb] at h
            simp only [Except.ok.injEq, Prod.mk.injEq] at h
            obtain ⟨rfl, rfl, rfl⟩ := h
            constructor
            · simp only [List.length_cons]; omega
            · simp [h2]

theorem vLoop_dict_ok (fmt : String) :
    ∀ (lines : List (Option Json)) (i : Nat),
      (∀ l ∈ lines, lineIsDictOrBad l = true) →
      ∃ errs, vLoop fmt i lines =
        Except.ok ((lines.filter (fun l => lineValid fmt l)).length,
          (lines.filter (fun l => !(lineValid fmt l))).length, errs) := by
  intro lines
  induction lines with
  | nil => intro i hl; exact ⟨[], rfl⟩
  | cons l rest ih =>
    intro i hl
    obtain ⟨errs, hr⟩ := ih (i + 1) (fun x hx => hl x (List.mem_cons_of_mem l hx))
    cases l with
    | none =>
      refine ⟨lineErr i ("Invalid JSON") :: errs, ?_⟩
      rw [vLoop_none_ok fmt i rest _ hr]
      simp [lineValid]
    | some j =>
      have hdict := hl (some j) (List.mem_cons_self _ _)
      cases j with
      | obj kvs =>
        obtain ⟨v0, hv⟩ := validateExample_obj_ok fmt kvs
        have hlv : lineValid fmt (some (Json.obj kvs)) = v0.1 := by
          simp [lineValid, hv]
        rw [vLoop_some_ok fmt i (Json.obj kvs) rest v0 _ hv hr]
        by_cases hb : v0.1 = true
        · refine ⟨errs, ?_⟩
          rw [if_pos hb]
          simp [List.filter_cons, hlv, hb]
        · refine ⟨lineErr i (v0.2.getD ("")) :: errs, ?_⟩
          rw [if_neg hb]
          simp only [Bool.not_eq_true] at hb
          simp [List.filter_cons, hlv, hb]
      | null => simp [lineIsDictOrBad] at hdict
      | bool b => simp [lineIsDictOrBad] at hdict
      | num q => simp [lineIsDictOrBad] at hdict
      | str s => simp [lineIsDictOrBad] at hdict
      | arr xs => simp [lineIsDictOrBad] at hdict

/-! ## Claim C9: the report invariant -/

/-- Claim C9: every report returned by `validate_jsonl_file` for an
existing file satisfies: total equals valid plus invalid, the valid flag
holds exactly when no example is invalid, and at most 10 error entries
are kept. -/
theorem validate_report_invariant (fmt : String) (lines : List (Option Json))
    (r : FileReport) (h : validateJsonlFile fmt lines = Except.ok r) :
    r.total = r.validExamples + r.invalidExamples ∧
    (r.valid = true ↔ r.invalidExamples = 0) ∧
    r.errors.length ≤ 10 := by
  unfold validateJsonlFile at h
  cases hv : vLoop fmt 1 lines with
  | error e => rw [hv] at h; exact Except.noConfusion h
  | ok t =>
    rw [hv] at h
    simp only [Except.ok.injEq] at h
    subst h
    obtain ⟨h1, h2⟩ := vLoop_ok_inv fmt lines 1 t.1 t.2.1 t.2.2 (by rw [hv])
    refine ⟨?_, ?_, ?_⟩
    · simp only
      omega
    · simp only [beq_iff_eq]
    · simp only [List.length_take]
      omega

/-- Witness for `validate_report_invariant` on a two-line file with one
valid chat example and one malformed line. -/
theorem validate_report_invariant_witness :
    validateJsonlFile ("chat")
        [some (Example.toJson (mkChatExample ("s") ("q") ("a"))), none] =
      Except.ok
        { valid := false, total := 2, validExamples := 1, invalidExamples := 1,
          errors := [("Line 2: Invalid JSON")] } ∧
    ((2 : Nat) = 1 + 1 ∧ ((false = true) ↔ (1 : Nat) = 0) ∧
      ([("Line 2: Invalid JSON")] : List String).length ≤ 10) := by
  have hfile : validateJsonlFile ("chat")
      [some (Example.toJson (mkChatExample ("s") ("q") ("a"))), none] =
      Except.ok
        { valid := false, total := 2, validExamples := 1, invalidExamples := 1,
          errors := [("Line 2: Invalid JSON")] } := by rfl
  have h := validate_report_invariant ("chat")
    [some (Example.toJson (mkChatExample ("s") ("q") ("a"))), none] _ hfile
  exact ⟨hfile, h⟩

/-! ## Claim C5: line-by-line counting of the JSONL validator -/

/-- Claim C5, as stated, is false: a line containing the valid JSON
scalar `5` passes parsing, but the schema check applies the Python
membership test to a non-iterable value and raises an uncaught
`TypeError`, aborting validation; the schema-valid second line is never
counted and no report is produced. -/
theorem validate_jsonl_scalar_counterexample :
    validateJsonlFile ("chat")
        [some (Json.num 5), some (Example.toJson (mkChatExample ("s") ("q") ("a")))] =
      Except.error ("TypeError: argument is not iterable") ∧
    lineValid ("chat") (some (Example.toJson (mkChatExample ("s") ("q") ("a")))) = true := by
  exact ⟨rfl, rfl⟩

/-- Claim C5 (amended: restricted to files whose parseable lines are
JSON objects, on which the schema check cannot raise): every line is
examined and contributes to exactly one of the valid or invalid counts,
a line that fails JSON parsing or fails the schema check being counted
as invalid without aborting validation of the remaining lines. -/
theorem validate_jsonl_counts_lines (fmt : String) (lines : List (Option Json))
    (hl : ∀ l ∈ lines, lineIsDictOrBad l = true) :
    ∃ r, validateJsonlFile fmt lines = Except.ok r ∧
      r.total = lines.length ∧
      r.validExamples = (lines.filter (fun l => lineValid fmt l)).length ∧
      r.invalidExamples = (lines.filter (fun l => !(lineValid fmt l))).length ∧
      r.validExamples + r.invalidExamples = lines.length := by
  obtain ⟨errs, hv⟩ := vLoop_dict_ok fmt lines 1 hl
  have hfile : validateJsonlFile fmt lines =
      Except.ok
        { valid := ((lines.filter (fun l => !(lineValid fmt l))).length == 0)
          total := lines.length
          validExamples := (lines.filter (fun l => lineValid fmt l)).length
          invalidExamples := (lines.filter (fun l => !(lineValid fmt l))).length
          errors := errs.take 10 } := by
    unfold validateJsonlFile
    rw [hv]
  refine ⟨_, hfile, rfl, rfl, rfl, ?_⟩
  exact (vLoop_ok_inv fmt lines 1 _ _ _ hv).1

/-- Witness for `validate_jsonl_counts_lines` on a two-line file of one
valid chat example and one malformed line. -/
theorem validate_jsonl_counts_lines_witness :
    (∀ l ∈ [some (Example.toJson (mkChatExample ("s") ("q") ("a"))), none],
      lineIsDictOrBad l = true) ∧
    ∃ r, validateJsonlFile ("chat")
        [some (Example.toJson (mkChatExample ("s") ("q") ("a"))), none] = Except.ok r ∧
      r.total = [some (Example.toJson (mkChatExample ("s") ("q") ("a"))), none].length ∧
      r.validExamples = ([some (Example.toJson (mkChatExample ("s") ("q") ("a"))), none].filter
        (fun l => lineValid ("chat") l)).length ∧
      r.invalidExamples = ([some (Example.toJson (mkChatExample ("s") ("q") ("a"))), none].filter
        (fun l => !(lineValid ("chat") l))).length ∧
      r.validExamples + r.invalidExamples =
        [some (Example.toJson (mkChatExample ("s") ("q") ("a"))), none].length := by
  have hdict : ∀ l ∈ [some (Example.toJson (mkChatExample ("s") ("q") ("a"))), none],
      lineIsDictOrBad l = true := by decide
  exact ⟨hdict, validate_jsonl_counts_lines ("chat") _ hdict⟩

/-! ## Helper lemma: the chat-message loop accepts encoded messages -/

theorem validateChatMsgs_map (msgs : List Message) :
    ∀ i, validateChatMsgs i (msgs.map Message.toJson) = (true, none) := by
  induction msgs with
  | nil => intro i; rfl
  | cons m t ih =>
    intro i
    have hr := ih (i + 1)
    cases hm : m.role <;>
      simp [validateChatMsgs, Message.toJson, roleValid, Role.toStr, List.lookup, hm, hr]

/-! ## Helper lemmas: stripping is idempotent -/

theorem pyStripList_eq_rdrop (l : List Char) :
    pyStripList l = List.rdropWhile isPyWs (l.dropWhile isPyWs) := rfl

theorem pyStripList_idem (l : List Char) : pyStripList (pyStripList l) = pyStripList l := by
  rw [pyStripList_eq_rdrop, pyStripList_eq_rdrop]
  have hu_nolead : (l.dropWhile isPyWs).dropWhile isPyWs = l.dropWhile isPyWs :=
    List.dropWhile_idempotent _ _
  have hpre : List.rdropWhile isPyWs (l.dropWhile isPyWs) <+: l.dropWhile isPyWs :=
    List.rdropWhile_prefix _ _
  have hv_nolead : (List.rdropWhile isPyWs (l.dropWhile isPyWs)).dropWhile isPyWs =
      List.rdropWhile isPyWs (l.dropWhile isPyWs) := by
    cases hv2 : List.rdropWhile isPyWs (l.dropWhile isPyWs) with
    | nil => simp
    | cons c cs =>
      obtain ⟨t, ht⟩ := hpre
      rw [hv2] at ht
      have hc : ¬ isPyWs c = true := by
        intro hch
        rw [← ht, List.cons_append, List.dropWhile_cons_of_pos hch] at hu_nolead
        have hlen := congrArg List.length hu_nolead
        have hle := (List.dropWhile_sublist (l := cs ++ t) isPyWs).length_le
        simp only [List.length_cons] at hlen
        omega
      rw [List.dropWhile_cons_of_neg hc]
  rw [hv_nolead]
  exact List.rdropWhile_idempotent _ _

theorem pyStrip_idem (s : String) : pyStrip (pyStrip s) = pyStrip s := by
  unfold pyStrip
  rw [show (String.mk (pyStripList s.data)).data = pyStripList s.data from rfl,
    pyStripList_idem]

/-! ## Helper lemmas: soundness of the three preprocessing loops -/

theorem grammarLoop_sound (cfg : PreprocCfg) :
    ∀ (lines : List String) (ex : Example), ex ∈ grammarLoop cfg lines →
      ∃ q a, ex = mkChatExample cfg.systemMsg q a ∧ pyStrip q = q ∧ pyStrip a = a ∧
        q ≠ "" ∧ a ≠ "" ∧ validateLength cfg (q ++ a) = true
  | [], ex, h => by simp [grammarLoop] at h
  | [l], ex, h => by simp [grammarLoop] at h
  | l :: l2 :: rest2, ex, h => by
    rw [show grammarLoop cfg (l :: l2 :: rest2) =
        (if pyStartsWith (pyStrip l) ("Q:") = true then
          (if pyStartsWith (pyStrip l2) ("A:") = true then
            (if pyStrip (pyDrop (pyStrip l) 2) ≠ "" ∧ pyStrip (pyDrop (pyStrip l2) 2) ≠ "" ∧
                validateLength cfg (pyStrip (pyDrop (pyStrip l) 2) ++
                  pyStrip (pyDrop (pyStrip l2) 2)) = true then
              [mkChatExample cfg.systemMsg (pyStrip (pyDrop (pyStrip l) 2))
                (pyStrip (pyDrop (pyStrip l2) 2))]
            else [])
          else []) ++ grammarLoop cfg rest2
        else grammarLoop cfg (l2 :: rest2))
      from rfl] at h
    split at h
    · rcases List.mem_append.mp h with h1 | h2
      · split at h1
        · split at h1
          · next hcond =>
            simp only [List.mem_singleton] at h1
            subst h1
            exact ⟨pyStrip (pyDrop (pyStrip l) 2), pyStrip (pyDrop (pyStrip l2) 2), rfl,
              pyStrip_idem _, pyStrip_idem _, hcond.1, hcond.2.1, hcond.2.2⟩
          · simp at h1
        · simp at h1
      · exact grammarLoop_sound cfg rest2 ex h2
    · exact grammarLoop_sound cfg (l2 :: rest2) ex h

theorem vocabLoop_sound (cfg : PreprocCfg) :
    ∀ (lines : List String) (ex : Example), ex ∈ vocabLoop cfg lines →
      ∃ en hi, (ex = mkToHirnu cfg.systemMsg en hi ∨ ex = mkToEnglish cfg.systemMsg en hi) ∧
        pyStrip en = en ∧ pyStrip hi = hi ∧ en ≠ "" ∧ hi ≠ ""
  | [], ex, h => by simp [vocabLoop] at h
  | [l], ex, h => by simp [vocabLoop] at h
  | l :: l2 :: rest2, ex, h => by
    rw [show vocabLoop cfg (l :: l2 :: rest2) =
        (if (pyStrip l = "" ∨ pyStartsWith (pyStrip l) ("#") = true) then
          vocabLoop cfg (l2 :: rest2)
        else if pyStartsWith (pyStrip l) ("EN:") = true then
          (if pyStartsWith (pyStrip l2) ("HI:") = true then
            (if pyStrip (pyDrop (pyStrip l) 3) ≠ "" ∧ pyStrip (pyDrop (pyStrip l2) 3) ≠ "" then
              [mkToHirnu cfg.systemMsg (pyStrip (pyDrop (pyStrip l) 3))
                  (pyStrip (pyDrop (pyStrip l2) 3)),
                mkToEnglish cfg.systemMsg (pyStrip (pyDrop (pyStrip l) 3))
                  (pyStrip (pyDrop (pyStrip l2) 3))]
            else [])
          else []) ++ vocabLoop cfg rest2
        else vocabLoop cfg (l2 :: rest2))
      from rfl] at h
    split at h
    · exact vocabLoop_sound cfg (l2 :: rest2) ex h
    · split at h
      · rcases List.mem_append.mp h with h1 | h2
        · split at h1
          · split at h1
            · next hcond =>
              simp only [List.mem_cons, List.not_mem_nil, or_false] at h1
              rcases h1 with h1 | h1 <;> subst h1
              · exact ⟨pyStrip (pyDrop (pyStrip l) 3), pyStrip (pyDrop (pyStrip l2) 3),
                  Or.inl rfl, pyStrip_idem _, pyStrip_idem _, hcond.1, hcond.2⟩
              · exact ⟨pyStrip (pyDrop (pyStrip l) 3), pyStrip (pyDrop (pyStrip l2) 3),
                  Or.inr rfl, pyStrip_idem _, pyStrip_idem _, hcond.1, hcond.2⟩
            · simp at h1
          · simp at h1
        · exact vocabLoop_sound cfg rest2 ex h2
      · exact vocabLoop_sound cfg (l2 :: rest2) ex h

theorem textLoop_sound (cfg : PreprocCfg) :
    ∀ (lines : List String) (ex : Example), ex ∈ textLoop cfg lines →
      ∃ hi en, (ex = mkToHirnu cfg.systemMsg en hi ∨ ex = mkToEnglish cfg.systemMsg en hi ∨
          ex = mkWhatMeans cfg.systemMsg hi en) ∧
        pyStrip hi = hi ∧ pyStrip en = en ∧ hi ≠ "" ∧ en ≠ ""
  | [], ex, h => by simp [textLoop] at h
  | [l], ex, h => by simp [textLoop] at h
  | l :: l2 :: rest2, ex, h => by
    rw [show textLoop cfg (l :: l2 :: rest2) =
        (if (pyStrip l = "" ∨ pyStartsWith (pyStrip l) ("#") = true ∨
            pyStartsWith (pyStrip l) ("---") = true) then
          textLoop cfg (l2 :: rest2)
        else if pyStartsWith (pyStrip l) ("HI:") = true then
          (if pyStartsWith (pyStrip l2) ("EN:") = true then
            (if pyStrip (pyDrop (pyStrip l) 3) ≠ "" ∧ pyStrip (pyDrop (pyStrip l2) 3) ≠ "" then
              [mkToHirnu cfg.systemMsg (pyStrip (pyDrop (pyStrip l2) 3))
                  (pyStrip (pyDrop (pyStrip l) 3)),
                mkToEnglish cfg.systemMsg (pyStrip (pyDrop (pyStrip l2) 3))
                  (pyStrip (pyDrop (pyStrip l) 3))] ++
                (if pyContainsChar (pyStrip (pyDrop (pyStrip l) 3)) '\x22' ∧
                    pyContainsChar (pyStrip (pyDrop (pyStrip l2) 3)) '\x22' then
                  [mkWhatMeans cfg.systemMsg (pyStrip (pyDrop (pyStrip l) 3))
                    (pyStrip (pyDrop (pyStrip l2) 3))]
                else [])
            else [])
          else []) ++ textLoop cfg rest2
        else textLoop cfg (l2 :: rest2))
      from rfl] at h
    split at h
    · exact textLoop_sound cfg (l2 :: rest2) ex h
    · split at h
      · rcases List.mem_append.mp h with h1 | h2
        · split at h1
          · split at h1
            · next hcond =>
              rcases List.mem_append.mp h1 with h3 | h3
              · simp only [List.mem_cons, List.not_mem_nil, or_false] at h3
                rcases h3 with h3 | h3 <;> subst h3
                · exact ⟨pyStrip (pyDrop (pyStrip l) 3), pyStrip (pyDrop (pyStrip l2) 3),
                    Or.inl rfl, pyStrip_idem _, pyStrip_idem _, hcond.1, hcond.2⟩
                · exact ⟨pyStrip (pyDrop (pyStrip l) 3), pyStrip (pyDrop (pyStrip l2) 3),
                    Or.inr (Or.inl rfl), pyStrip_idem _, pyStrip_idem _, hcond.1, hcond.2⟩
              · split at h3
                · simp only [List.mem_singleton] at h3
                  subst h3
                  exact ⟨pyStrip (pyDrop (pyStrip l) 3), pyStrip (pyDrop (pyStrip l2) 3),
                    Or.inr (Or.inr rfl), pyStrip_idem _, pyStrip_idem _, hcond.1, hcond.2⟩
                · simp at h3
            · simp at h1
          · simp at h1
        · exact textLoop_sound cfg rest2 ex h2
      · exact textLoop_sound cfg (l2 :: rest2) ex h

/-! ## Claim C4: converter output is schema-valid after a round trip -/

/-- Claim C4: for every Example and each of the three configured format
types, the converted example, serialized to JSON and re-parsed, is
judged schema-valid by the validator for that same format type. -/
theorem convert_validate_roundtrip (fmt sys : String)
    (hfmt : fmt = "chat" ∨ fmt = "completion" ∨ fmt = "text") (e : Example) :
    ∃ out, convertExample (ConvCfg.mk fmt sys) e.toJson = Except.ok out ∧
      validateExample fmt (jsonRoundTrip out) = Except.ok (true, none) := by
  rcases hfmt with rfl | rfl | rfl
  · refine ⟨e.toJson, ?_, ?_⟩
    · simp [convertExample, toChatFormat, Example.toJson, Json.getKey?, List.lookup]
    · have hm := validateChatMsgs_map e.messages 0
      simp [jsonRoundTrip, validateExample, validateChatFormat, pyIn, pySub,
        Example.toJson, List.lookup, hm]
  · exact ⟨toCompletionFormat e.toJson, rfl, rfl⟩
  · exact ⟨toTextFormat e.toJson, rfl, rfl⟩

/-! ## Claim C3: what the preprocessor guarantees about emitted text -/

/-- Claim C3, as stated, is false in both clauses: the preprocessing
loops never invoke `normalize_whitespace` (interior whitespace runs
survive in emitted text), and the vocabulary loop applies no length
filter at all (a two-character translation is emitted although it is
far below the default `min_text_length` of 10). -/
theorem preprocessor_counterexample :
    grammarLoop defaultCfg [("Q: a   b  cd"), ("A: word123456")] =
      [mkChatExample defaultCfg.systemMsg ("a   b  cd") ("word123456")] ∧
    normalizeWhitespace true ("a   b  cd") ≠ ("a   b  cd") ∧
    vocabLoop defaultCfg [("EN: hello there"), ("HI: yo")] =
      [mkToHirnu defaultCfg.systemMsg ("hello there") ("yo"),
        mkToEnglish defaultCfg.systemMsg ("hello there") ("yo")] ∧
    validateLength defaultCfg ("yo") = false := by
  refine ⟨by decide, by decide, by decide, by decide⟩

/-- Claim C3 (amended): every example emitted by the preprocessor is
built from text segments stripped of leading and trailing whitespace
only (the whitespace-collapsing normalization is not applied by these
routines); grammar (`Q:`/`A:`) examples additionally pass the configured
length-range filter applied to the concatenation of question and answer,
while vocabulary (`EN:`/`HI:`) and parallel-text (`HI:`/`EN:`) pairs are
required only to be non-empty after stripping and are not length
filtered. -/
theorem preprocessor_emits_stripped_filtered (cfg : PreprocCfg) (lines : List String)
    (ex : Example) :
    (ex ∈ grammarLoop cfg lines →
      ∃ q a, ex = mkChatExample cfg.systemMsg q a ∧ pyStrip q = q ∧ pyStrip a = a ∧
        q ≠ "" ∧ a ≠ "" ∧ validateLength cfg (q ++ a) = true) ∧
    (ex ∈ vocabLoop cfg lines →
      ∃ en hi, (ex = mkToHirnu cfg.systemMsg en hi ∨ ex = mkToEnglish cfg.systemMsg en hi) ∧
        pyStrip en = en ∧ pyStrip hi = hi ∧ en ≠ "" ∧ hi ≠ "") ∧
    (ex ∈ textLoop cfg lines →
      ∃ hi en, (ex = mkToHirnu cfg.systemMsg en hi ∨ ex = mkToEnglish cfg.systemMsg en hi ∨
          ex = mkWhatMeans cfg.systemMsg hi en) ∧
        pyStrip hi = hi ∧ pyStrip en = en ∧ hi ≠ "" ∧ en ≠ "") :=
  ⟨grammarLoop_sound cfg lines ex, vocabLoop_sound cfg lines ex, textLoop_sound cfg lines ex⟩

/-- Witness for `preprocessor_emits_stripped_filtered` on a concrete
grammar file. -/
theorem preprocessor_emits_stripped_filtered_witness :
    (mkChatExample defaultCfg.systemMsg ("what is X") ("answer1234") ∈
      grammarLoop defaultCfg [("Q: what is X"), ("A: answer1234")]) ∧
    (∃ q a, mkChatExample defaultCfg.systemMsg ("what is X") ("answer1234") =
        mkChatExample defaultCfg.systemMsg q a ∧ pyStrip q = q ∧ pyStrip a = a ∧
        q ≠ "" ∧ a ≠ "" ∧ validateLength defaultCfg (q ++ a) = true) := by
  have hmem : mkChatExample defaultCfg.systemMsg ("what is X") ("answer1234") ∈
      grammarLoop defaultCfg [("Q: what is X"), ("A: answer1234")] := by decide
  exact ⟨hmem, (preprocessor_emits_stripped_filtered defaultCfg
    [("Q: what is X"), ("A: answer1234")]
    (mkChatExample defaultCfg.systemMsg ("what is X") ("answer1234"))).1 hmem⟩

/-- Witness for `convert_validate_roundtrip` on a concrete Example in
chat format. -/
theorem convert_validate_roundtrip_witness :
    (("chat" : String) = "chat" ∨ ("chat" : String) = "completion" ∨
      ("chat" : String) = "text") ∧
    ∃ out, convertExample (ConvCfg.mk ("chat") ("sys"))
        (mkChatExample ("s") ("q") ("a")).toJson = Except.ok out ∧
      validateExample ("chat") (jsonRoundTrip out) = Except.ok (true, none) :=
  ⟨Or.inl rfl, convert_validate_roundtrip ("chat") ("sys") (Or.inl rfl)
    (mkChatExample ("s") ("q") ("a"))⟩

end Hirnu
